import Mathlib

/-!
Shallow embedding of the Bittensor registration assistant.

Sources embedded:
- `src/monitoring/fee_strategy.py` (`AdaptiveFeeStrategy`)
- `src/settings/block_monitor.py` (`EnhancedBlockMonitor`)
- `src/strategy/registration.py` (`RegistrationAssistant.register_neuron`,
  `RegistrationAssistant.register_thread`)
- `src/bittensor_registration/config.py` (constants)

Python floats are modelled as rationals (ℚ), Python ints as ℤ/ℕ, and
fallible external calls as `Option` parameters of the embedded functions.
-/

/-- Constant `BASE_PRIORITY_FEE = 0.5` from `config.py`. -/
def BASE_PRIORITY_FEE : ℚ := 1/2

/-- Constant `MAX_PRIORITY_FEE = 2.0` from `config.py`. -/
def MAX_PRIORITY_FEE : ℚ := 2

/-- Constant `TEMPO = 360` from `config.py`. -/
def TEMPO : ℤ := 360

/-- Constant `BLOCK_WINDOW = range(10, 60)` from `config.py`: the offsets 10..59. -/
def BLOCK_WINDOW : List ℤ := (List.range' 10 50).map Int.ofNat

/-- State of `AdaptiveFeeStrategy` (`fee_strategy.py`). Floats are rationals. -/
structure AdaptiveFeeStrategy where
  base_multiplier : ℚ
  max_multiplier : ℚ
  adapt_threshold : ℕ
  attempts : ℕ
  successes : ℕ
  success_rate : ℚ
  block_congestion : ℚ
  recent_fees : List ℚ
  last_fee : Option ℚ
  deriving Repr, DecidableEq

/-- `AdaptiveFeeStrategy.__init__`: attempts 0, successes 0, success_rate 0.5,
congestion 0.0, empty fee history, no last fee. -/
def AdaptiveFeeStrategy.init (base_multiplier max_multiplier : ℚ)
    (adapt_threshold : ℕ) : AdaptiveFeeStrategy :=
  { base_multiplier := base_multiplier
    max_multiplier := max_multiplier
    adapt_threshold := adapt_threshold
    attempts := 0
    successes := 0
    success_rate := 1/2
    block_congestion := 0
    recent_fees := []
    last_fee := none }

/-- The `success is not None` half of `update_statistics`: increment attempts,
increment successes on success, recompute `success_rate = successes / attempts`. -/
def updateOutcome (s : AdaptiveFeeStrategy) (success : Bool) : AdaptiveFeeStrategy :=
  let attempts := s.attempts + 1
  let successes := if success then s.successes + 1 else s.successes
  { s with attempts := attempts, successes := successes,
           success_rate := (successes : ℚ) / (attempts : ℚ) }

/-- The `block_time is not None` half of `update_statistics`: congestion rises
capped (1.0 / 0.8 / 0.5) for slow blocks and decays by 0.05 floored at 0. -/
def updateTiming (s : AdaptiveFeeStrategy) (block_time : ℚ) : AdaptiveFeeStrategy :=
  { s with block_congestion :=
      if 12 < block_time then min 1 (s.block_congestion + 1/10)
      else if 9 < block_time then min (4/5) (s.block_congestion + 1/20)
      else if 6 < block_time then min (1/2) (s.block_congestion + 1/50)
      else max 0 (s.block_congestion - 1/20) }

/-- `compute_priority_fee`: the returned fee together with the updated state
(`last_fee` cached, fee appended to `recent_fees`, head popped past length 10). -/
def compute_priority_fee (s : AdaptiveFeeStrategy) (base_cost : ℚ) :
    ℚ × AdaptiveFeeStrategy :=
  let fee :=
    if s.adapt_threshold < s.attempts then
      let modifier :=
        if s.success_rate < 1/5 then
          min s.max_multiplier (s.max_multiplier - 1/2 + s.block_congestion * (1/2))
        else if s.success_rate < 1/2 then
          min (s.max_multiplier - 1/5) (s.base_multiplier + 1/2 + s.block_congestion * (3/10))
        else
          s.base_multiplier + s.block_congestion * (1/5)
      base_cost * modifier
    else
      base_cost * s.base_multiplier
  let fees0 := s.recent_fees ++ [fee]
  let fees := if 10 < fees0.length then fees0.tail else fees0
  (fee, { s with last_fee := some fee, recent_fees := fees })

/-- Return record of `get_fee_statistics`. -/
structure FeeStatistics where
  current_multiplier : ℚ
  success_rate : ℚ
  congestion : ℚ
  avg_fee : ℚ
  min_fee : ℚ
  max_fee : ℚ
  deriving Repr, DecidableEq

/-- `get_fee_statistics`: empty history returns the flat baseline with zeroed
fee fields; otherwise `current_multiplier` is
`last_fee / (last_fee / base_multiplier)` when `last_fee` is truthy
(non-`None` and nonzero), else `base_multiplier`, with avg/min/max over
`recent_fees`. -/
def get_fee_statistics (s : AdaptiveFeeStrategy) : FeeStatistics :=
  match s.recent_fees with
  | [] =>
    { current_multiplier := s.base_multiplier
      success_rate := s.success_rate
      congestion := s.block_congestion
      avg_fee := 0
      min_fee := 0
      max_fee := 0 }
  | f :: fs =>
    let cm :=
      match s.last_fee with
      | some lf =>
        if lf ≠ 0 then lf / (lf / s.base_multiplier) else s.base_multiplier
      | none => s.base_multiplier
    { current_multiplier := cm
      success_rate := s.success_rate
      congestion := s.block_congestion
      avg_fee := ((f :: fs).foldl (· + ·) 0) / ((f :: fs).length : ℚ)
      min_fee := fs.foldl min f
      max_fee := fs.foldl max f }

/-- One call into the fee strategy: an outcome update, a timing update, or a
fee computation (which mutates the history and `last_fee`). -/
inductive FeeEvent where
  | outcome (success : Bool)
  | timing (block_time : ℚ)
  | compute (base_cost : ℚ)

/-- Apply one event to the strategy state. -/
def FeeEvent.apply (s : AdaptiveFeeStrategy) : FeeEvent → AdaptiveFeeStrategy
  | .outcome b => updateOutcome s b
  | .timing t => updateTiming s t
  | .compute c => (compute_priority_fee s c).2

/-- Run a sequence of events from a starting state. -/
def runEvents (s : AdaptiveFeeStrategy) (es : List FeeEvent) : AdaptiveFeeStrategy :=
  es.foldl FeeEvent.apply s

/-- An invariant preserved by every event is preserved by every event sequence. -/
theorem runEvents_inv (P : AdaptiveFeeStrategy → Prop)
    (hstep : ∀ s e, P s → P (FeeEvent.apply s e)) :
    ∀ (es : List FeeEvent) (s : AdaptiveFeeStrategy), P s → P (runEvents s es) := by
  intro es
  induction es with
  | nil => intro s hs; exact hs
  | cons e es ih =>
    intro s hs
    exact ih (FeeEvent.apply s e) (hstep s e hs)

/-- Python `max(...)` over a non-empty iterable (callers never pass `[]`;
on `[]` Python raises, modelled here by the junk value 0). -/
def listMax : List ℤ → ℤ
  | [] => 0
  | x :: xs => xs.foldl max x

/-- Python `min(...)` over a non-empty iterable (callers never pass `[]`;
on `[]` Python raises, modelled here by the junk value 0). -/
def listMin : List ℤ → ℤ
  | [] => 0
  | x :: xs => xs.foldl min x

/-- The dict returned by `EnhancedBlockMonitor._get_window_info`. -/
structure WindowInfo where
  in_window : Bool
  block_in_tempo : Option ℤ
  blocks_left : Option ℤ
  next_window : Option ℤ
  status : String
  deriving Repr, DecidableEq

/-- `EnhancedBlockMonitor._get_window_info`, with the monitor fields `tempo`
and `block_window` passed explicitly. -/
def get_window_info (tempo : ℤ) (window : List ℤ) (block : Option ℤ) : WindowInfo :=
  match block with
  | none =>
    { in_window := false, block_in_tempo := none, blocks_left := none,
      next_window := none, status := "Unknown" }
  | some b =>
    let block_in_tempo := b % tempo
    if block_in_tempo ∈ window then
      let bl0 := listMax window - block_in_tempo
      let blocks_left :=
        if bl0 ≤ 0 then listMax window - listMin window + tempo else bl0
      { in_window := true, block_in_tempo := some block_in_tempo,
        blocks_left := some blocks_left, next_window := none,
        status := "WINDOW ACTIVE - " ++ toString blocks_left ++ " blocks left" }
    else
      let dists := window.map (fun w =>
        if block_in_tempo < w then w - block_in_tempo else tempo - block_in_tempo + w)
      let nw := listMin dists
      { in_window := false, block_in_tempo := some block_in_tempo,
        blocks_left := none, next_window := some nw,
        status := "Next window in ~" ++ toString nw ++ " blocks" }

/-- The mutable observation state of `EnhancedBlockMonitor`: the cached block,
the wall-clock second (ℚ) it was observed at, and the window configuration. -/
structure BlockMonitor where
  current_block : Option ℤ
  last_updated : ℚ
  tempo : ℤ
  block_window : List ℤ
  deriving Repr, DecidableEq

/-- `EnhancedBlockMonitor.get_current_block`, with `datetime.now()` passed as
the explicit parameter `now`: the cached block and its window info when the
cache is non-empty and fresher than 10 seconds, otherwise `(None, None)`. -/
def get_current_block (m : BlockMonitor) (now : ℚ) : Option ℤ × Option WindowInfo :=
  match m.current_block with
  | some b =>
    if now - m.last_updated < 10 then
      (some b, some (get_window_info m.tempo m.block_window (some b)))
    else (none, none)
  | none => (none, none)

/-- One probe (`_check_via_taostats`, `_check_via_polkadot_subscan`, ...):
on a successful fetch of `new_block` the cache and timestamp are overwritten
unconditionally and `True` is returned; on any failure (HTTP error, missing
field, exception) the state is untouched and `False` is returned. -/
def probe_step (m : BlockMonitor) (result : Option ℤ) (now : ℚ) :
    BlockMonitor × Bool :=
  match result with
  | some new_block =>
    ({ m with current_block := some new_block, last_updated := now }, true)
  | none => (m, false)

/-- The external observations one `register_neuron` call makes, as a record:
`is_hotkey_registered`, `get_burn_cost`, `get_balance`, the pair returned by
`get_current_block`, and the boolean outcome of `bt.register`. -/
structure ChainEnv where
  already_registered : Bool
  burn_cost : Option ℚ
  balance : ℚ
  current_block : Option ℤ
  window_info : Option WindowInfo
  submit_result : Bool
  deriving Repr

/-- `RegistrationAssistant.register_neuron` over a `ChainEnv`: returns the
boolean the Python function returns together with the updated fee strategy.
Mirrors the decision chain: already-registered short-circuit, missing cost,
`balance < cost`, window gate (skipped when `current_block` is falsy, i.e.
`None` or `0`), optional priority fee, submission, outcome recording. -/
def register_neuron (env : ChainEnv) (fs : AdaptiveFeeStrategy)
    (use_priority_fee : Bool) : Bool × AdaptiveFeeStrategy :=
  if env.already_registered then (true, fs)
  else
    match env.burn_cost with
    | none => (false, fs)
    | some cost =>
      if env.balance < cost then (false, fs)
      else
        let window_ok :=
          match env.current_block, env.window_info with
          | some b, some wi => if b ≠ 0 then wi.in_window else true
          | _, _ => true
        if window_ok = false then (false, fs)
        else
          let fs1 := if use_priority_fee then (compute_priority_fee fs cost).2 else fs
          if env.submit_result then (true, updateOutcome fs1 true)
          else (false, updateOutcome fs1 false)

/-- One iteration of the `RegistrationAssistant.register_thread` loop body
with the stop event unset: pop the head wallet, attempt it, and when the
attempt returns `False` re-append the wallet to the tail of the lane. -/
def register_thread_step {α : Type} (wallets : List α) (attempt : α → Bool) :
    List α :=
  match wallets with
  | [] => []
  | w :: rest => if attempt w then rest else rest ++ [w]

/-- Claim C4: while at most `adapt_threshold` attempts have been recorded,
`compute_priority_fee` returns exactly `base_cost * base_multiplier`,
regardless of the congestion value or any timing updates recorded so far. -/
theorem cold_start_flat_fee (s : AdaptiveFeeStrategy) (base_cost : ℚ)
    (h : s.attempts ≤ s.adapt_threshold) :
    (compute_priority_fee s base_cost).1 = base_cost * s.base_multiplier := by
  simp [compute_priority_fee, Nat.not_lt.mpr h]

/-- Witness for C4: the freshly initialised strategy has 0 ≤ 5 attempts and
yields fee `3 * (1/2)` on base cost 3. -/
theorem cold_start_flat_fee_witness :
    (AdaptiveFeeStrategy.init BASE_PRIORITY_FEE MAX_PRIORITY_FEE 5).attempts ≤
      (AdaptiveFeeStrategy.init BASE_PRIORITY_FEE MAX_PRIORITY_FEE 5).adapt_threshold ∧
    (compute_priority_fee (AdaptiveFeeStrategy.init BASE_PRIORITY_FEE MAX_PRIORITY_FEE 5) 3).1 =
      3 * (AdaptiveFeeStrategy.init BASE_PRIORITY_FEE MAX_PRIORITY_FEE 5).base_multiplier :=
  ⟨by decide, cold_start_flat_fee _ 3 (by decide)⟩

/-- Claim C8: with an empty recent-fee history, `get_fee_statistics` returns
avg = min = max = 0 and `current_multiplier = base_multiplier` (the
division-free branch). -/
theorem empty_history_stats (s : AdaptiveFeeStrategy) (h : s.recent_fees = []) :
    get_fee_statistics s =
      { current_multiplier := s.base_multiplier
        success_rate := s.success_rate
        congestion := s.block_congestion
        avg_fee := 0
        min_fee := 0
        max_fee := 0 } := by
  obtain ⟨b, mm, t, a, su, sr, c, fees, lf⟩ := s
  simp only at h
  subst h
  rfl

/-- Witness for C8: the freshly initialised strategy has an empty history and
returns the zeroed statistics record. -/
theorem empty_history_stats_witness :
    (AdaptiveFeeStrategy.init BASE_PRIORITY_FEE MAX_PRIORITY_FEE 5).recent_fees = [] ∧
    get_fee_statistics (AdaptiveFeeStrategy.init BASE_PRIORITY_FEE MAX_PRIORITY_FEE 5) =
      { current_multiplier := BASE_PRIORITY_FEE
        success_rate := 1/2
        congestion := 0
        avg_fee := 0
        min_fee := 0
        max_fee := 0 } :=
  ⟨rfl, empty_history_stats _ rfl⟩

/-- Claim C10: in every controller state with a nonzero `base_multiplier`,
`get_fee_statistics` reports `current_multiplier = base_multiplier`: in the
non-empty branch the expression `last_fee / (last_fee / base_multiplier)`
collapses to `base_multiplier` for nonzero `last_fee`, and every other case
falls back to `base_multiplier` explicitly. -/
theorem reported_multiplier_is_base (s : AdaptiveFeeStrategy)
    (hb : s.base_multiplier ≠ 0) :
    (get_fee_statistics s).current_multiplier = s.base_multiplier := by
  obtain ⟨b, mm, t, a, su, sr, c, fees, lf⟩ := s
  simp only at hb ⊢
  cases fees with
  | nil => rfl
  | cons f fs =>
    cases lf with
    | none => rfl
    | some x =>
      by_cases hx : x = 0
      · simp [get_fee_statistics, hx]
      · simp only [get_fee_statistics, hx, ne_eq, not_false_eq_true, if_true]
        rw [div_div_eq_mul_div, mul_comm, mul_div_assoc, div_self hx, mul_one]

/-- Controller state after six attempts where a tier-1 multiplier of 1.5 was
applied to base cost 2 (fee 3), used to instantiate statistics claims. -/
def tieredFeeState : AdaptiveFeeStrategy :=
  { base_multiplier := 1/2
    max_multiplier := 2
    adapt_threshold := 5
    attempts := 6
    successes := 1
    success_rate := 1/6
    block_congestion := 0
    recent_fees := [3]
    last_fee := some 3 }

/-- Witness for C10: a state whose last fee used multiplier 1.5 still reports
`current_multiplier = 1/2`. -/
theorem reported_multiplier_is_base_witness :
    tieredFeeState.base_multiplier ≠ 0 ∧
    (get_fee_statistics tieredFeeState).current_multiplier = tieredFeeState.base_multiplier :=
  ⟨by norm_num [tieredFeeState], reported_multiplier_is_base tieredFeeState (by norm_num [tieredFeeState])⟩

/-- One `compute_priority_fee` call keeps the fee history within capacity 10. -/
theorem compute_fee_len_le (s : AdaptiveFeeStrategy) (bc : ℚ)
    (h : s.recent_fees.length ≤ 10) :
    (compute_priority_fee s bc).2.recent_fees.length ≤ 10 := by
  unfold compute_priority_fee
  dsimp only
  simp only [List.length_append, List.length_singleton]
  by_cases hlen : 10 < s.recent_fees.length + 1
  · rw [if_pos hlen]
    simp only [List.length_tail, List.length_append, List.length_singleton]
    omega
  · rw [if_neg hlen]
    simp only [List.length_append, List.length_singleton]
    omega

/-- Every event preserves the capacity bound on the fee history. -/
theorem event_preserves_capacity (s : AdaptiveFeeStrategy) (e : FeeEvent)
    (h : s.recent_fees.length ≤ 10) :
    (FeeEvent.apply s e).recent_fees.length ≤ 10 := by
  cases e with
  | outcome x => simpa [FeeEvent.apply, updateOutcome] using h
  | timing x => simpa [FeeEvent.apply, updateTiming] using h
  | compute c => exact compute_fee_len_le s c h

/-- In any reachable state the history has at most 10 entries. -/
theorem reachable_capacity (b mm : ℚ) (t : ℕ) (es : List FeeEvent) :
    (runEvents (AdaptiveFeeStrategy.init b mm t) es).recent_fees.length ≤ 10 :=
  runEvents_inv (fun s => s.recent_fees.length ≤ 10)
    (fun s e hs => event_preserves_capacity s e hs) es _ (by simp [AdaptiveFeeStrategy.init])

/-- The new history is the old one with the fee appended at the tail, with the
head (oldest entry) dropped exactly when the old history was already full. -/
theorem compute_fee_fifo_shape (s : AdaptiveFeeStrategy) (bc : ℚ)
    (h : s.recent_fees.length ≤ 10) :
    (compute_priority_fee s bc).2.recent_fees =
      if s.recent_fees.length < 10 then
        s.recent_fees ++ [(compute_priority_fee s bc).1]
      else
        (s.recent_fees ++ [(compute_priority_fee s bc).1]).tail := by
  unfold compute_priority_fee
  dsimp only
  simp only [List.length_append, List.length_singleton]
  by_cases hlen : s.recent_fees.length < 10
  · rw [if_neg (show ¬ 10 < s.recent_fees.length + 1 by omega), if_pos hlen]
  · rw [if_pos (show 10 < s.recent_fees.length + 1 by omega), if_neg hlen]

/-- Claim C9: in every reachable controller state the recent-fee history has
at most 10 entries; `compute_priority_fee` appends the new fee at the tail,
drops exactly the oldest (head) entry when the history was full, and the
resulting history again has at most 10 entries. -/
theorem recent_fees_bounded_fifo (b mm : ℚ) (t : ℕ) (es : List FeeEvent) (bc : ℚ) :
    (runEvents (AdaptiveFeeStrategy.init b mm t) es).recent_fees.length ≤ 10 ∧
    (compute_priority_fee (runEvents (AdaptiveFeeStrategy.init b mm t) es) bc).2.recent_fees =
      (if (runEvents (AdaptiveFeeStrategy.init b mm t) es).recent_fees.length < 10 then
        (runEvents (AdaptiveFeeStrategy.init b mm t) es).recent_fees ++
          [(compute_priority_fee (runEvents (AdaptiveFeeStrategy.init b mm t) es) bc).1]
      else
        ((runEvents (AdaptiveFeeStrategy.init b mm t) es).recent_fees ++
          [(compute_priority_fee (runEvents (AdaptiveFeeStrategy.init b mm t) es) bc).1]).tail) ∧
    (compute_priority_fee (runEvents (AdaptiveFeeStrategy.init b mm t) es) bc).2.recent_fees.length ≤ 10 := by
  have hcap := reachable_capacity b mm t es
  exact ⟨hcap, compute_fee_fifo_shape _ bc hcap, compute_fee_len_le _ bc hcap⟩

/-- Invariant of every state reachable with the default construction
parameters: the multipliers are the configured constants and the congestion
indicator stays in the unit interval. -/
def FeeDefaultsInv (s : AdaptiveFeeStrategy) : Prop :=
  s.base_multiplier = 1/2 ∧ s.max_multiplier = 2 ∧
  0 ≤ s.block_congestion ∧ s.block_congestion ≤ 1

/-- Every event preserves `FeeDefaultsInv`. -/
theorem event_preserves_defaults (s : AdaptiveFeeStrategy) (e : FeeEvent)
    (hs : FeeDefaultsInv s) : FeeDefaultsInv (FeeEvent.apply s e) := by
  obtain ⟨hb, hm, hc0, hc1⟩ := hs
  cases e with
  | outcome x =>
    exact ⟨by simpa [FeeEvent.apply, updateOutcome] using hb,
           by simpa [FeeEvent.apply, updateOutcome] using hm,
           by simpa [FeeEvent.apply, updateOutcome] using hc0,
           by simpa [FeeEvent.apply, updateOutcome] using hc1⟩
  | timing x =>
    have hcong : 0 ≤ (updateTiming s x).block_congestion ∧
        (updateTiming s x).block_congestion ≤ 1 := by
      simp only [updateTiming]
      split_ifs with h1 h2 h3
      · exact ⟨le_min (by norm_num) (by linarith), min_le_left _ _⟩
      · exact ⟨le_min (by norm_num) (by linarith),
               le_trans (min_le_left _ _) (by norm_num)⟩
      · exact ⟨le_min (by norm_num) (by linarith),
               le_trans (min_le_left _ _) (by norm_num)⟩
      · exact ⟨le_max_left _ _, max_le (by norm_num) (by linarith)⟩
    exact ⟨by simpa [FeeEvent.apply, updateTiming] using hb,
           by simpa [FeeEvent.apply, updateTiming] using hm,
           by simpa [FeeEvent.apply] using hcong.1,
           by simpa [FeeEvent.apply] using hcong.2⟩
  | compute c =>
    exact ⟨by simpa [FeeEvent.apply, compute_priority_fee] using hb,
           by simpa [FeeEvent.apply, compute_priority_fee] using hm,
           by simpa [FeeEvent.apply, compute_priority_fee] using hc0,
           by simpa [FeeEvent.apply, compute_priority_fee] using hc1⟩

/-- `FeeDefaultsInv` holds in every state reachable from the default
construction `AdaptiveFeeStrategy(0.5, 2.0, 5)`. -/
theorem reachable_defaults (es : List FeeEvent) :
    FeeDefaultsInv (runEvents (AdaptiveFeeStrategy.init BASE_PRIORITY_FEE MAX_PRIORITY_FEE 5) es) :=
  runEvents_inv FeeDefaultsInv event_preserves_defaults es _
    ⟨rfl, rfl, by norm_num [AdaptiveFeeStrategy.init], by norm_num [AdaptiveFeeStrategy.init]⟩

/-- Under `FeeDefaultsInv`, every branch of `compute_priority_fee` yields a
fee of at most `base_cost * max_multiplier = base_cost * 2`. -/
theorem compute_fee_le_max (s : AdaptiveFeeStrategy) (bc : ℚ)
    (hinv : FeeDefaultsInv s) (hbc : 0 ≤ bc) :
    (compute_priority_fee s bc).1 ≤ bc * 2 := by
  obtain ⟨hb, hm, hc0, hc1⟩ := hinv
  unfold compute_priority_fee
  dsimp only
  rw [hb, hm]
  split_ifs with h1 h2 h3
  · exact mul_le_mul_of_nonneg_left (min_le_left _ _) hbc
  · exact mul_le_mul_of_nonneg_left
      (le_trans (min_le_left _ _) (by norm_num)) hbc
  · exact mul_le_mul_of_nonneg_left (by linarith) hbc
  · exact mul_le_mul_of_nonneg_left (by norm_num) hbc

/-- Claim C5: with the default parameters (base multiplier 0.5, max
multiplier 2.0, adapt threshold 5), after any sequence of outcome, timing and
fee-computation events and for every non-negative base cost,
`compute_priority_fee` returns at most `base_cost * MAX_PRIORITY_FEE`. -/
theorem fee_never_exceeds_max_bound (es : List FeeEvent) (bc : ℚ) (hbc : 0 ≤ bc) :
    (compute_priority_fee (runEvents (AdaptiveFeeStrategy.init BASE_PRIORITY_FEE MAX_PRIORITY_FEE 5) es) bc).1 ≤
      bc * MAX_PRIORITY_FEE :=
  compute_fee_le_max _ bc (reachable_defaults es) hbc

/-- Witness for C5: with no events recorded and base cost 1 the computed fee
is bounded by `1 * MAX_PRIORITY_FEE`. -/
theorem fee_never_exceeds_max_bound_witness :
    (0 : ℚ) ≤ 1 ∧
    (compute_priority_fee (runEvents (AdaptiveFeeStrategy.init BASE_PRIORITY_FEE MAX_PRIORITY_FEE 5) []) 1).1 ≤
      1 * MAX_PRIORITY_FEE :=
  ⟨by norm_num, fee_never_exceeds_max_bound [] 1 (by norm_num)⟩

/-- Claim C3: for every tempo > 0, non-empty windowSet inside [0, tempo) and
block height h, `_get_window_info` reports the window active exactly when
`h mod tempo` is an element of the window set. -/
theorem window_in_window_iff (tempo : ℤ) (window : List ℤ) (h : ℤ)
    (ht : 0 < tempo) (hne : window ≠ [])
    (hsub : ∀ w ∈ window, 0 ≤ w ∧ w < tempo) :
    ((get_window_info tempo window (some h)).in_window = true) ↔
      h % tempo ∈ window := by
  unfold get_window_info
  by_cases hm : h % tempo ∈ window
  · simp [hm]
  · simp [hm]

set_option maxRecDepth 8000 in
/-- Witness for C3: tempo 360, window 10..59, h = 15: 15 mod 360 = 15 is in
the window set and the window is reported active. -/
theorem window_in_window_iff_witness :
    ((get_window_info TEMPO BLOCK_WINDOW (some 15)).in_window = true) ↔
      (15 : ℤ) % TEMPO ∈ BLOCK_WINDOW :=
  window_in_window_iff TEMPO BLOCK_WINDOW 15 (by norm_num [TEMPO]) (by decide)
    (by decide)

set_option maxRecDepth 8000 in
/-- Claim C6: with tempo 360 and window 10..59, a height with offset 59 (the
last eligible offset) is reported in-window with `blocks_left` computed by the
wrap rule: (59 - 10) + 360 = 409. -/
theorem window_boundary_wrap (h : ℤ) (hm : h % 360 = 59) :
    (get_window_info 360 BLOCK_WINDOW (some h)).in_window = true ∧
    (get_window_info 360 BLOCK_WINDOW (some h)).blocks_left = some 409 := by
  unfold get_window_info
  dsimp only
  rw [hm]
  exact ⟨by decide, by decide⟩

set_option maxRecDepth 8000 in
/-- Witness for C6: height 419 has offset 419 mod 360 = 59. -/
theorem window_boundary_wrap_witness :
    (get_window_info 360 BLOCK_WINDOW (some 419)).in_window = true ∧
    (get_window_info 360 BLOCK_WINDOW (some 419)).blocks_left = some 409 :=
  window_boundary_wrap 419 (by decide)

/-- Claim C7: `get_current_block` returns the cached height with its window
info only when the cache holds a height observed less than 10 seconds ago;
when the observation is at least 10 seconds old, or no height was ever
observed, it returns `(None, None)` even though the cached integer may still
be present. -/
theorem get_current_block_freshness (m : BlockMonitor) (now : ℚ) :
    (10 ≤ now - m.last_updated ∨ m.current_block = none →
      get_current_block m now = (none, none)) ∧
    (∀ b : ℤ, m.current_block = some b → now - m.last_updated < 10 →
      get_current_block m now =
        (some b, some (get_window_info m.tempo m.block_window (some b)))) := by
  constructor
  · intro hstale
    unfold get_current_block
    cases hcb : m.current_block with
    | none => rfl
    | some b =>
      dsimp only
      rcases hstale with hold | hnone
      · rw [if_neg (not_lt.mpr hold)]
      · rw [hcb] at hnone; exact absurd hnone (by simp)
  · intro b hb hfresh
    unfold get_current_block
    rw [hb]
    dsimp only
    rw [if_pos hfresh]

/-- Monitor state with cached block 100 observed at time 0, default window
configuration. -/
def monitorCached100 : BlockMonitor :=
  { current_block := some 100, last_updated := 0, tempo := TEMPO,
    block_window := BLOCK_WINDOW }

/-- Witness for C7: at time 20 the observation from time 0 is 20 seconds old,
so the cached height 100 is reported as unknown. -/
theorem get_current_block_freshness_witness :
    get_current_block monitorCached100 20 = (none, none) :=
  (get_current_block_freshness monitorCached100 20).1
    (Or.inl (by norm_num [monitorCached100]))

/-- Counterexample to C2: starting from a cache holding height 100, a
successful probe reporting the strictly smaller height 50 overwrites the
cache with 50 — the cached height is downgraded by a successful probe. -/
theorem probe_downgrade_counterexample :
    monitorCached100.current_block = some 100 ∧
    (probe_step monitorCached100 (some 50) 1).1.current_block = some 50 ∧
    (50 : ℤ) < 100 :=
  ⟨rfl, rfl, by norm_num⟩

/-- Amended C2: a failed probe leaves the whole monitor state unchanged and
returns `False`; a successful probe overwrites the cached height with the
probed value unconditionally — even when that value is smaller — and stamps
the observation time. -/
theorem probe_step_cache_update (m : BlockMonitor) (now : ℚ) :
    probe_step m none now = (m, false) ∧
    ∀ b : ℤ, (probe_step m (some b) now).1.current_block = some b ∧
      (probe_step m (some b) now).1.last_updated = now ∧
      (probe_step m (some b) now).2 = true :=
  ⟨rfl, fun _ => ⟨rfl, rfl, rfl⟩⟩

/-- Environment in which the credential is not yet registered, the burn cost
is 10 TAO and the coldkey balance is only 5 TAO. -/
def lowBalanceEnv : ChainEnv :=
  { already_registered := false
    burn_cost := some 10
    balance := 5
    current_block := none
    window_info := none
    submit_result := true }

/-- Counterexample to C1: with balance 5 < cost 10, `register_neuron` returns
`False`, and the `register_thread` loop body re-appends the credential to its
lane — the lane `[0]` becomes `[0]` again rather than `[]`, so the credential
is retried. -/
theorem insufficient_funds_retried_counterexample :
    lowBalanceEnv.balance < 10 ∧
    (register_neuron lowBalanceEnv
      (AdaptiveFeeStrategy.init BASE_PRIORITY_FEE MAX_PRIORITY_FEE 5) true).1 = false ∧
    register_thread_step [(0 : ℕ)]
      (fun _ => (register_neuron lowBalanceEnv
        (AdaptiveFeeStrategy.init BASE_PRIORITY_FEE MAX_PRIORITY_FEE 5) true).1) = [0] := by
  refine ⟨by norm_num [lowBalanceEnv], ?_, ?_⟩
  · rfl
  · rfl

/-- Amended C1: when the fetched balance is below the fetched cost,
`register_neuron` reports failure (`False`) without submitting and leaves the
fee strategy untouched, and the thread loop then re-appends the credential to
the tail of its lane and retries it like any other failure (the run continues
for the remaining credentials in the lane). -/
theorem insufficient_funds_requeued (env : ChainEnv) (fs : AdaptiveFeeStrategy)
    (upf : Bool) (c : ℚ) (hreg : env.already_registered = false)
    (hc : env.burn_cost = some c) (hb : env.balance < c) :
    register_neuron env fs upf = (false, fs) ∧
    ∀ (w : ℕ) (rest : List ℕ),
      register_thread_step (w :: rest)
        (fun _ => (register_neuron env fs upf).1) = rest ++ [w] := by
  have h1 : register_neuron env fs upf = (false, fs) := by
    unfold register_neuron
    rw [hreg, hc]
    simp [hb]
  refine ⟨h1, fun w rest => ?_⟩
  simp [register_thread_step, h1]

/-- Witness for amended C1: the concrete low-balance environment yields
`(False, unchanged strategy)` and the lane `[7]` becomes `[] ++ [7]`. -/
theorem insufficient_funds_requeued_witness :
    register_neuron lowBalanceEnv
      (AdaptiveFeeStrategy.init BASE_PRIORITY_FEE MAX_PRIORITY_FEE 5) true =
      (false, AdaptiveFeeStrategy.init BASE_PRIORITY_FEE MAX_PRIORITY_FEE 5) ∧
    register_thread_step [(7 : ℕ)]
      (fun _ => (register_neuron lowBalanceEnv
        (AdaptiveFeeStrategy.init BASE_PRIORITY_FEE MAX_PRIORITY_FEE 5) true).1) = [] ++ [7] := by
  have h := insufficient_funds_requeued lowBalanceEnv
    (AdaptiveFeeStrategy.init BASE_PRIORITY_FEE MAX_PRIORITY_FEE 5) true 10 rfl rfl
    (by norm_num [lowBalanceEnv])
  exact ⟨h.1, h.2 7 []⟩
